import Mathlib

/-!
Verification of the data-acquisition and aggregation pipeline of the
crypto-sentiment dashboard (`src/app.py`).

Shallow embedding conventions:
* Python floats are modelled as rationals (`ℚ`); the comparisons in the
  advisory mapper and price-alert code are plain order comparisons, so the
  structure of the branching is preserved exactly.
* The external sentiment scorer (`TextBlob(...).sentiment.polarity`) is a
  black-box deterministic function, modelled as a parameter `pol : String → ℚ`.
* HTTP fetches are fallible: their outcome is modelled as `Except String β`.
* The `st.cache_data` layer is modelled as an association list of
  (key, value, storedAt) entries; an entry is live while `now - storedAt < ttl`.
* The `tenacity` retry decorator `retry(stop=stop_after_attempt(3),
  wait=wait_exponential(multiplier=1, min=4, max=10))` is modelled as an
  explicit bounded retry loop recording the attempt count and the sleeps.
-/

namespace CryptoApp

/-! ## Advisory mapper (`provide_investment_advice`, app.py lines 416-427) -/

/-- The five advisory categories emitted by `provide_investment_advice`. -/
inductive Advice : Type
  | strongPositive
  | mildPositive
  | strongNegative
  | mildNegative
  | neutral
deriving DecidableEq, Repr

/-- Embedding of `provide_investment_advice(score)` (app.py 416-427):
`if score > 0.1 / elif score > 0 / elif score < -0.1 / elif score < 0 / else`. -/
def provide_investment_advice (score : ℚ) : Advice :=
  if score > 1/10 then Advice.strongPositive
  else if score > 0 then Advice.mildPositive
  else if score < -(1/10) then Advice.strongNegative
  else if score < 0 then Advice.mildNegative
  else Advice.neutral

/-- Modelled from the spec (§4.7 table): the advisory mapper as the spec
words it, with the explicit interval conditions
`S > 0.1`, `0 < S ≤ 0.1`, `S == 0`, `-0.1 ≤ S < 0`, `S < -0.1`. -/
def advisoryMapperSpec (S : ℚ) : Advice :=
  if S > 1/10 then Advice.strongPositive
  else if 0 < S ∧ S ≤ 1/10 then Advice.mildPositive
  else if S = 0 then Advice.neutral
  else if -(1/10) ≤ S ∧ S < 0 then Advice.mildNegative
  else Advice.strongNegative

/-! ## Sentiment aggregator (`analyze_comments`, app.py 386-414) -/

/-- One row of the analysis DataFrame built in `analyze_comments`. -/
structure SentimentRecord where
  comment : String
  polarity : ℚ
  label : String
deriving DecidableEq, Repr

/-- The label lambda of app.py 395-397:
`"Positive 😊" if x > 0 else ("Negative 😔" if x < 0 else "Neutral 😐")`. -/
def sentimentLabel (x : ℚ) : String :=
  if x > 0 then "Positive 😊" else if x < 0 then "Negative 😔" else "Neutral 😐"

/-- The DataFrame rows built in `analyze_comments` (app.py 391-397): one
record per comment, carrying the comment, its polarity and its label. -/
def sentimentRecords (pol : String → ℚ) (comments : List String) :
    List SentimentRecord :=
  comments.map (fun c => ⟨c, pol c, sentimentLabel (pol c)⟩)

/-- Embedding of `analyze_comments(comments)` (app.py 386-414): returns `0`
for an empty list, otherwise the mean of the Polarity column of the
DataFrame it builds (`analysis["Polarity"].mean()`). -/
def analyze_comments (pol : String → ℚ) (comments : List String) : ℚ :=
  if comments.isEmpty then 0
  else
    let analysis := sentimentRecords pol comments
    ((analysis.map SentimentRecord.polarity).sum) / (analysis.length : ℚ)

/-- Outcome of the sentiment-analysis card of `main` (app.py 564-570):
either advice derived from a score, or the "no comments found" warning. -/
inductive SentimentOutcome : Type
  | advice (score : ℚ) (a : Advice)
  | noCommentsWarning
deriving DecidableEq, Repr

/-- Embedding of the sentiment card of `main` (app.py 564-570):
`if comments: score = analyze_comments(comments); provide_investment_advice(score)
else: st.warning(...)`. -/
def sentimentSection (pol : String → ℚ) (comments : List String) :
    SentimentOutcome :=
  if comments.isEmpty then SentimentOutcome.noCommentsWarning
  else
    SentimentOutcome.advice (analyze_comments pol comments)
      (provide_investment_advice (analyze_comments pol comments))

/-- Minimum of a list of rationals (0 for the empty list; only used on
nonempty lists). -/
def listMin : List ℚ → ℚ
  | [] => 0
  | [x] => x
  | x :: y :: t => min x (listMin (y :: t))

/-- Maximum of a list of rationals (0 for the empty list; only used on
nonempty lists). -/
def listMax : List ℚ → ℚ
  | [] => 0
  | [x] => x
  | x :: y :: t => max x (listMax (y :: t))

/-! ## Price alert evaluator (app.py 588-592)

```
current_price = prices[-1] if prices else 0
if current_price >= target_price > 0: ... reached ...
elif current_price <= target_price > 0: ... dropped below ...
```
The Python chained comparison `a >= b > 0` means `a ≥ b ∧ b > 0`. -/

/-- The two alert signals of the price-alert check. -/
inductive AlertSignal : Type
  | reached
  | droppedBelow
deriving DecidableEq, Repr

/-- Embedding of the price-alert branch of `main` (app.py 588-592). -/
def priceAlertCheck (current_price target_price : ℚ) : Option AlertSignal :=
  if current_price ≥ target_price ∧ target_price > 0 then
    some AlertSignal.reached
  else if current_price ≤ target_price ∧ target_price > 0 then
    some AlertSignal.droppedBelow
  else none

/-! ## Retry policy (tenacity decorator, app.py 263, 309, 324, 339, 365)

`@retry(stop=stop_after_attempt(3), wait=wait_exponential(multiplier=1,
min=4, max=10))`: invoke the operation; on an exception, if fewer than 3
attempts have been made, sleep `max(min_, min(multiplier * 2**attempt, max_))`
seconds and try again; after the 3rd failed attempt the failure is surfaced. -/

/-- The wait of tenacity `wait_exponential(multiplier, min=minW, max=maxW)`, evaluated
after the given (1-based) failed attempt number:
`max(max(0, min_), min(multiplier * 2 ** attempt_number, max_))`. -/
def waitExponential (multiplier minW maxW : ℚ) (attemptNumber : ℕ) : ℚ :=
  max (max 0 minW) (min (multiplier * 2 ^ attemptNumber) maxW)

/-- Result of running a retried operation: the final outcome, the number of
times the operation was invoked, and the sleeps performed between attempts. -/
structure RetryResult (E A : Type) where
  result : Except E A
  attempts : ℕ
  sleeps : List ℚ

/-- The retry loop.  `op n` is the outcome of the (0-based) n-th invocation
of the wrapped operation; `fuel` is the number of retries still allowed
after the current attempt; `idx` is the index of the current attempt;
`sleeps` accumulates the waits performed so far. -/
def retryAux (wait : ℕ → ℚ) (op : ℕ → Except E A) :
    ℕ → ℕ → List ℚ → RetryResult E A
  | 0, idx, sleeps => ⟨op idx, idx + 1, sleeps⟩
  | fuel + 1, idx, sleeps =>
    match op idx with
    | Except.ok v => ⟨Except.ok v, idx + 1, sleeps⟩
    | Except.error _ => retryAux wait op fuel (idx + 1) (sleeps ++ [wait (idx + 1)])

/-- A retried call with attempt ceiling `stopAfter` (tenacity
`stop_after_attempt`): at most `stopAfter` invocations. -/
def retryCall (stopAfter : ℕ) (wait : ℕ → ℚ) (op : ℕ → Except E A) :
    RetryResult E A :=
  retryAux wait op (stopAfter - 1) 0 []

/-- The retry decorator configuration used throughout app.py:
`stop_after_attempt(3), wait_exponential(multiplier=1, min=4, max=10)`. -/
def appRetry (op : ℕ → Except E A) : RetryResult E A :=
  retryCall 3 (waitExponential 1 4 10) op

/-! ## Discussion client (`fetch_reddit_comments`, app.py 365-381) -/

/-- `needle` is an initial run of `haystack` (character lists). -/
def leadsChars : List Char → List Char → Bool
  | [], _ => true
  | _ :: _, [] => false
  | a :: as, b :: bs => a == b && leadsChars as bs

/-- `needle` occurs as a contiguous run somewhere in the character list. -/
def occursInChars (needle : List Char) : List Char → Bool
  | [] => needle.isEmpty
  | c :: rest => leadsChars needle (c :: rest) || occursInChars needle rest

/-- The Python `str.lower()` operation, modelled on the character sequence. -/
def lowerChars (l : List Char) : List Char := l.map Char.toLower

/-- The comment filter of app.py 374: `coin_symbol.lower() in c.body.lower()`
— the symbol occurs in the body as a case-insensitive substring (the Python `in` operator on strings is contiguous-substring containment). -/
def mentionsSymbol (coin_symbol body : String) : Bool :=
  occursInChars (lowerChars coin_symbol.data) (lowerChars body.data)

/-- The submission-scanning loop of `fetch_reddit_comments` (app.py 369-377):
`comments` starts empty; for each submission in order, the matching comment
bodies are appended (`comments.extend(...)`); the loop breaks as soon as
`limit` comments have been collected (`if len(comments) >= limit: break`). -/
def collectLoop (coin_symbol : String) (limit : ℕ) :
    List (List String) → List String → List String
  | [], comments => comments
  | sub :: rest, comments =>
    let comments2 := comments ++ sub.filter (fun c => mentionsSymbol coin_symbol c)
    if limit ≤ comments2.length then comments2
    else collectLoop coin_symbol limit rest comments2

/-- Embedding of `fetch_reddit_comments(coin_symbol, limit=50)` (app.py
365-381).  The outcome of the Reddit fetch is an `Except`: `ok subs` gives
the comment bodies of the (at most 10) hot submissions, one flat list per
submission (`submission.comments.list()` after `replace_more(limit=0)`
expands all nested replies); any exception anywhere in the fetch is caught
and yields `[]` after `st.error`.  On success the collected comments are
truncated: `return comments[:limit]`. -/
def fetch_reddit_comments (fetchOutcome : Except String (List (List String)))
    (coin_symbol : String) (limit : ℕ) : List String :=
  match fetchOutcome with
  | Except.error _ => []
  | Except.ok subs => (collectLoop coin_symbol limit subs []).take limit

/-! ## Market data client (app.py 307-363) -/

/-- Embedding of the value `fetch_all_coins()` computes (app.py 310-321),
given the outcome of its HTTP attempt: the id→symbol mapping built by the
dict comprehension on success, the degraded empty mapping `{}` on any
exception (caught by the `try/except`, after `st.error`). -/
def fetch_all_coins (fetchOutcome : Except String (List (String × String))) :
    List (String × String) :=
  match fetchOutcome with
  | Except.ok coins => coins
  | Except.error _ => []

/-- The coin metadata object returned by the CoinGecko coin endpoint; only
its presence matters to the flow modelled here, so it is kept abstract as
its display name. -/
structure CoinInfo where
  name : String
deriving DecidableEq, Repr

/-- Embedding of the value `fetch_coin_info(coin_id)` computes (app.py
325-336): the metadata on success, `None` on any exception (caught by the
`try/except`, after `st.error`). -/
def fetch_coin_info (fetchOutcome : Except String CoinInfo) : Option CoinInfo :=
  match fetchOutcome with
  | Except.ok info => some info
  | Except.error _ => none

/-- Embedding of the value `fetch_market_data(coin_id, days)` computes
(app.py 340-363).  The HTTP outcome carries the "prices" array: a list of
[timestamp-milliseconds, price] pairs (`response.json().get("prices", [])`,
a missing key giving the empty list).  Nonempty data is unzipped into
(dates, prices), the date being `fromtimestamp(d / 1000)` (modelled as the
epoch-seconds value `d / 1000`); empty data, or any exception, gives
`([], [])`. -/
def fetch_market_data (fetchOutcome : Except String (List (ℚ × ℚ))) :
    List ℚ × List ℚ :=
  match fetchOutcome with
  | Except.error _ => ([], [])
  | Except.ok data =>
    if data.isEmpty then ([], [])
    else (data.map (fun dp => dp.1 / 1000), data.map (fun dp => dp.2))

/-! ## Cache layer (`st.cache_data`, app.py 307, 323, 338)

`st.cache_data(ttl=...)` memoizes the decorated function by its argument
tuple.  The decorated bodies catch every exception and return a degraded
value, so the wrapper always receives an ordinary return value to store. -/

/-- One memo entry of the cache: argument key, stored value, storage time. -/
structure CacheEntry (κ α : Type) where
  key : κ
  value : α
  storedAt : ℚ

/-- Result of one call through the cache wrapper: the returned value, the
cache afterwards, the outside world afterwards, and whether the wrapped
function was invoked. -/
structure CacheCallResult (κ α σ : Type) where
  value : α
  cache : List (CacheEntry κ α)
  world : σ
  invoked : Bool

/-- Look up a live (unexpired) entry for a key: an entry is usable while
`now - storedAt < ttl`. -/
def lookupLive [DecidableEq κ] (ttl now : ℚ) (k : κ) :
    List (CacheEntry κ α) → Option α
  | [] => none
  | en :: rest =>
    if en.key = k ∧ now - en.storedAt < ttl then some en.value
    else lookupLive ttl now k rest

/-- One call through the `st.cache_data` wrapper: if a live entry for the
key exists, its value is returned without invoking the wrapped function;
otherwise the wrapped function runs (transforming the outside world `σ`),
its return value is stored with the current time, and is returned. -/
def cachedCall [DecidableEq κ] (ttl : ℚ) (body : κ → σ → α × σ) (k : κ)
    (now : ℚ) (cache : List (CacheEntry κ α)) (world : σ) :
    CacheCallResult κ α σ :=
  match lookupLive ttl now k cache with
  | some v => ⟨v, cache, world, false⟩
  | none =>
    let r := body k world
    ⟨r.1, ⟨k, r.1, now⟩ :: cache, r.2, true⟩

/-- Two successive calls through the cache wrapper with the same key, at
times `t0` and `t1`, starting from an empty cache.  Returns, for each call,
its value and whether it invoked the body. -/
def cachedTwice [DecidableEq κ] (ttl t0 t1 : ℚ) (body : κ → σ → α × σ)
    (k : κ) (world : σ) : (α × Bool) × (α × Bool) :=
  let r1 := cachedCall ttl body k t0 [] world
  let r2 := cachedCall ttl body k t1 r1.cache r1.world
  ((r1.value, r1.invoked), (r2.value, r2.invoked))

/-- The body of `fetch_all_coins` (app.py 310-321) as the cache wrapper sees
it: one HTTP fetch is consumed from the world (the queue of outcomes the
network will produce); a success gives the id→symbol mapping and any
exception is caught by the `try/except` and converted to the degraded empty
mapping `{}`.  The body never raises, so the tenacity retry around it
performs exactly one attempt and the cache wrapper always receives a value. -/
def fetch_all_coins_body (_u : Unit)
    (world : List (Except String (List (String × String)))) :
    List (String × String) × List (Except String (List (String × String))) :=
  match world with
  | [] => ([], [])
  | o :: rest => (fetch_all_coins o, rest)

/-- The body of `fetch_coin_info` (app.py 325-336) as the cache wrapper sees
it (keyed by `coin_id`): one HTTP fetch is consumed; a success gives the
metadata and any exception is caught by the `try/except` and converted to
the degraded value `None`. -/
def fetch_coin_info_body (_coin_id : String)
    (world : List (Except String CoinInfo)) :
    Option CoinInfo × List (Except String CoinInfo) :=
  match world with
  | [] => (none, [])
  | o :: rest => (fetch_coin_info o, rest)

/-- The body of `fetch_market_data` (app.py 340-363) as the cache wrapper
sees it (keyed by the argument pair `(coin_id, days)`): one HTTP fetch is
consumed; any exception is caught by the `try/except` and converted to the
degraded empty series `([], [])`. -/
def fetch_market_data_body (_args : String × ℕ)
    (world : List (Except String (List (ℚ × ℚ)))) :
    (List ℚ × List ℚ) × List (Except String (List (ℚ × ℚ))) :=
  match world with
  | [] => (([], []), [])
  | o :: rest => (fetch_market_data o, rest)

/-- Two successive calls to the cached `fetch_all_coins` (ttl 3600 in the
source) at times `t0` and `t1`, starting from an empty cache, with `world`
the queue of HTTP outcomes. -/
def fetchAllCoinsTwice (ttl t0 t1 : ℚ)
    (world : List (Except String (List (String × String)))) :
    (List (String × String) × Bool) × (List (String × String) × Bool) :=
  cachedTwice ttl t0 t1 fetch_all_coins_body () world

/-- Two successive calls to the cached `fetch_coin_info` (ttl 600 in the
source) with the same `coin_id`, at times `t0` and `t1`, starting from an
empty cache. -/
def fetchCoinInfoTwice (ttl t0 t1 : ℚ) (coin_id : String)
    (world : List (Except String CoinInfo)) :
    (Option CoinInfo × Bool) × (Option CoinInfo × Bool) :=
  cachedTwice ttl t0 t1 fetch_coin_info_body coin_id world

/-- Two successive calls to the cached `fetch_market_data` (ttl 300 in the
source) with the same `(coin_id, days)` arguments, at times `t0` and `t1`,
starting from an empty cache. -/
def fetchMarketDataTwice (ttl t0 t1 : ℚ) (coin_id : String) (days : ℕ)
    (world : List (Except String (List (ℚ × ℚ)))) :
    ((List ℚ × List ℚ) × Bool) × ((List ℚ × List ℚ) × Bool) :=
  cachedTwice ttl t0 t1 fetch_market_data_body (coin_id, days) world

/-! ## Main analysis flow (`main`, app.py 483-594) -/

/-- Outcome of one run of the analysis flow of `main`: the fatal halt when
no coin list could be loaded (app.py 509-511: `st.error("Failed to load
cryptocurrency list"); st.stop()`); the idle page (analysis not yet
requested); an uncaught `TypeError` abort — when the market data is nonempty
app.py 585 evaluates `coin_info['name']`, which raises if `fetch_coin_info`
returned `None`, ending the run after the sentiment card (which the outcome
carries) with no chart and no alert; or a completed analysis recording
whether the coin info was shown, the sentiment card outcome, whether the
chart was shown, and the price alert emitted. -/
inductive MainOutcome : Type
  | haltedNoCoins
  | idle
  | crashedTypeError (sentiment : SentimentOutcome)
  | completed (infoShown : Bool) (sentiment : SentimentOutcome)
      (chartShown : Bool) (alert : Option AlertSignal)
deriving DecidableEq, Repr

/-- The outcomes of the four external fetches a single analysis run can
perform. -/
structure FetchOutcomes where
  allCoins : Except String (List (String × String))
  coinInfo : Except String CoinInfo
  reddit : Except String (List (List String))
  market : Except String (List (ℚ × ℚ))

/-- Embedding of the analysis flow of `main` (app.py 508-594): load the coin
list and halt with a visible error when it is empty (app.py 509-511); then,
if analysis was requested, fetch the coin info (shown only when present),
run the sentiment card on the Reddit comments, and fetch the market data.
The chart branch runs only when the series is nonempty (`if dates and
prices:`); inside it, app.py 585 reads `coin_info['name']` before drawing
the chart and checking the alert, so if the coin info is absent there the
run aborts with an uncaught `TypeError`; with the info present the chart is
shown and the alert evaluated on `current_price = prices[-1]`. -/
def mainFlow (pol : String → ℚ) (o : FetchOutcomes) (coin_symbol : String)
    (analyzeClicked : Bool) (target_price : ℚ) : MainOutcome :=
  let coins := fetch_all_coins o.allCoins
  if coins.isEmpty then MainOutcome.haltedNoCoins
  else if analyzeClicked then
    let info := fetch_coin_info o.coinInfo
    let comments := fetch_reddit_comments o.reddit coin_symbol 50
    let dp := fetch_market_data o.market
    if !dp.1.isEmpty && !dp.2.isEmpty then
      match info with
      | none => MainOutcome.crashedTypeError (sentimentSection pol comments)
      | some _ =>
        MainOutcome.completed true (sentimentSection pol comments) true
          (priceAlertCheck (dp.2.getLastD 0) target_price)
    else
      MainOutcome.completed info.isSome (sentimentSection pol comments)
        false none
  else MainOutcome.idle

end CryptoApp

namespace CryptoApp

/-! ## Helper lemmas -/

/-- Unfolding `analyze_comments` on a nonempty list: it is the arithmetic
mean of the polarities of the comments. -/
theorem analyze_comments_eq_mean (pol : String → ℚ) (comments : List String)
    (h : comments ≠ []) :
    analyze_comments pol comments
      = (comments.map pol).sum / (comments.length : ℚ) := by
  unfold analyze_comments
  rw [if_neg (by simpa using h)]
  simp only [sentimentRecords, List.map_map, List.length_map]
  congr 1

/-- The minimum of a list is a lower bound for its members. -/
theorem listMin_le_of_mem : ∀ (l : List ℚ) (x : ℚ), x ∈ l → listMin l ≤ x
  | [], x, h => absurd h (List.not_mem_nil x)
  | [y], x, h => by
      rcases List.mem_singleton.mp h with rfl
      exact le_of_eq rfl
  | y :: z :: t, x, h => by
      rcases List.mem_cons.mp h with rfl | h2
      · exact min_le_left _ _
      · exact le_trans (min_le_right _ _) (listMin_le_of_mem (z :: t) x h2)

/-- The maximum of a list is an upper bound for its members. -/
theorem le_listMax_of_mem : ∀ (l : List ℚ) (x : ℚ), x ∈ l → x ≤ listMax l
  | [], x, h => absurd h (List.not_mem_nil x)
  | [y], x, h => by
      rcases List.mem_singleton.mp h with rfl
      exact le_of_eq rfl
  | y :: z :: t, x, h => by
      rcases List.mem_cons.mp h with rfl | h2
      · exact le_max_left _ _
      · exact le_trans (le_listMax_of_mem (z :: t) x h2) (le_max_right _ _)

/-- The mean of a nonempty list of rationals is bounded below by any lower
bound of its members. -/
theorem lowerBound_le_mean (l : List ℚ) (a : ℚ) (hne : l ≠ [])
    (hb : ∀ x ∈ l, a ≤ x) : a ≤ l.sum / (l.length : ℚ) :=
  have hlen : (0 : ℚ) < (l.length : ℚ) := by
    exact_mod_cast List.length_pos.mpr hne
  (le_div_iff₀ hlen).mpr (by
    calc a * (l.length : ℚ) = (l.length : ℚ) * a := mul_comm _ _
    _ = l.length • a := by rw [nsmul_eq_mul]
    _ ≤ l.sum := List.card_nsmul_le_sum l a hb)

/-- The mean of a nonempty list of rationals is bounded above by any upper
bound of its members. -/
theorem mean_le_upperBound (l : List ℚ) (b : ℚ) (hne : l ≠ [])
    (hb : ∀ x ∈ l, x ≤ b) : l.sum / (l.length : ℚ) ≤ b :=
  have hlen : (0 : ℚ) < (l.length : ℚ) := by
    exact_mod_cast List.length_pos.mpr hne
  (div_le_iff₀ hlen).mpr (by
    calc l.sum ≤ l.length • b := List.sum_le_card_nsmul l b hb
    _ = (l.length : ℚ) * b := by rw [nsmul_eq_mul]
    _ = b * (l.length : ℚ) := mul_comm _ _)

/-- Claim C4: for every mean polarity S the advisory mapper emits exactly one
of the five categories, with the boundaries of §4.7: S > 0.1 strong positive;
0 < S ≤ 0.1 mild positive (so S = 0.1 is mild, not strong); S = 0 neutral;
-0.1 ≤ S < 0 mild negative; S < -0.1 strong negative.  Stated as: the branch cascade of the code coincides with the five-interval mapping of the spec (the code is a
total function into the five-constructor type, so exactly one category is
emitted). -/
theorem advice_matches_spec (S : ℚ) :
    provide_investment_advice S = advisoryMapperSpec S := by
  unfold provide_investment_advice advisoryMapperSpec
  by_cases h1 : S > 1/10
  · rw [if_pos h1, if_pos h1]
  · rw [if_neg h1, if_neg h1]
    by_cases h2 : S > 0
    · rw [if_pos h2, if_pos ⟨h2, le_of_not_lt h1⟩]
    · rw [if_neg h2, if_neg (show ¬(0 < S ∧ S ≤ 1/10) from fun h => h2 h.1)]
      by_cases h3 : S < -(1/10)
      · rw [if_pos h3, if_neg (show ¬S = 0 by intro h; rw [h] at h3; linarith),
          if_neg (show ¬(-(1/10) ≤ S ∧ S < 0) from fun h => absurd h3 (not_lt.mpr h.1))]
      · rw [if_neg h3]
        by_cases h4 : S < 0
        · rw [if_pos h4, if_neg (ne_of_lt h4), if_pos ⟨le_of_not_lt h3, h4⟩]
        · rw [if_neg h4, if_pos (le_antisymm (le_of_not_lt h2) (le_of_not_lt h4))]

/-- Claim C5: the price alert evaluator emits "reached" at latest=100,
target=100 (equality takes the reached branch), "dropped below" at latest=90,
target=100, and no alert at all when the target is 0, whatever the latest
price. -/
theorem priceAlert_cases :
    priceAlertCheck 100 100 = some AlertSignal.reached ∧
    priceAlertCheck 90 100 = some AlertSignal.droppedBelow ∧
    ∀ latest : ℚ, priceAlertCheck latest 0 = none := by
  refine ⟨by decide, by decide, ?_⟩
  intro latest
  simp [priceAlertCheck]

/-- Claim C3, counterexample: `analyze_comments` returns only a score, and on
the empty list that score (0) is identical to the score of a nonempty,
genuinely neutral comment list — no separate "no data" flag is reported by
the aggregator, so the two cases are indistinguishable from its output.  The
oracle scores every text 0 (a genuinely neutral reading). -/
theorem analyze_comments_no_flag_cex :
    analyze_comments (fun _ => 0) []
      = analyze_comments (fun _ => 0) ["the market moved today"] := by
  simp [analyze_comments, sentimentRecords]

/-- Claim C3 amended: given an empty sequence of comments, `analyze_comments`
returns a sentiment score of exactly 0 (not an error) and nothing else — no
separate "no data" flag.  The empty case is distinguished by the caller
(`main`, app.py 564-570), which tests the comment list before invoking the
aggregator: on an empty list it shows the "no comments" warning and never
computes advice, and on a nonempty list it shows advice for the aggregate
score. -/
theorem analyze_comments_empty_handling (pol : String → ℚ) :
    analyze_comments pol [] = 0 ∧
    sentimentSection pol [] = SentimentOutcome.noCommentsWarning ∧
    ∀ (c : String) (cs : List String),
      sentimentSection pol (c :: cs)
        = SentimentOutcome.advice (analyze_comments pol (c :: cs))
            (provide_investment_advice (analyze_comments pol (c :: cs))) := by
  refine ⟨rfl, rfl, ?_⟩
  intro c cs
  simp [sentimentSection]

/-- Claim C6: on a nonempty comment list, `analyze_comments` returns the
arithmetic mean of the polarities of the comments, and every record built for the
table carries the label Positive/Negative/Neutral according to the sign of
its polarity. -/
theorem analyze_comments_mean_and_labels (pol : String → ℚ)
    (comments : List String) (h : comments ≠ []) :
    analyze_comments pol comments
        = (comments.map pol).sum / (comments.length : ℚ) ∧
    ∀ r ∈ sentimentRecords pol comments,
      (r.polarity > 0 → r.label = "Positive 😊") ∧
      (r.polarity < 0 → r.label = "Negative 😔") ∧
      (r.polarity = 0 → r.label = "Neutral 😐") := by
  refine ⟨analyze_comments_eq_mean pol comments h, ?_⟩
  intro r hr
  rcases List.mem_map.mp hr with ⟨c, _, rfl⟩
  refine ⟨fun hpos => ?_, fun hneg => ?_, fun hzero => ?_⟩
  · simp only [sentimentLabel]
    rw [if_pos hpos]
  · simp only [sentimentLabel]
    rw [if_neg (by simpa using le_of_lt hneg), if_pos hneg]
  · simp only [sentimentLabel] at *
    rw [if_neg (by simp [hzero]), if_neg (by simp [hzero])]

/-- Witness for C6 at a concrete input: two comments with polarities 1/2 and
-1/4; the mean is computed and the label conditions hold for the records. -/
theorem analyze_comments_mean_and_labels_witness :
    (["good coin", "bad coin"] : List String) ≠ [] ∧
    (analyze_comments (fun c => if c = "good coin" then 1/2 else -(1/4))
        ["good coin", "bad coin"]
        = ((["good coin", "bad coin"].map
            (fun c => if c = "good coin" then (1/2 : ℚ) else -(1/4))).sum
            / ((["good coin", "bad coin"] : List String).length : ℚ)) ∧
    ∀ r ∈ sentimentRecords (fun c => if c = "good coin" then 1/2 else -(1/4))
        ["good coin", "bad coin"],
      (r.polarity > 0 → r.label = "Positive 😊") ∧
      (r.polarity < 0 → r.label = "Negative 😔") ∧
      (r.polarity = 0 → r.label = "Neutral 😐")) :=
  ⟨List.cons_ne_nil _ _,
    analyze_comments_mean_and_labels _ _ (List.cons_ne_nil _ _)⟩

/-- Claim C10 (implicit): on a nonempty comment list, the aggregate score
lies between the minimum and the maximum of the individual polarities; in
particular, if every polarity lies in [-1, 1] then so does the score. -/
theorem analyze_comments_between_min_max (pol : String → ℚ)
    (comments : List String) (h : comments ≠ []) :
    listMin (comments.map pol) ≤ analyze_comments pol comments ∧
    analyze_comments pol comments ≤ listMax (comments.map pol) ∧
    ((∀ c ∈ comments, -1 ≤ pol c ∧ pol c ≤ 1) →
      -1 ≤ analyze_comments pol comments ∧ analyze_comments pol comments ≤ 1) := by
  have hmapne : comments.map pol ≠ [] := by
    simpa using h
  have hlen : (comments.map pol).length = comments.length := List.length_map _ _
  have hmean : analyze_comments pol comments
      = (comments.map pol).sum / ((comments.map pol).length : ℚ) := by
    rw [analyze_comments_eq_mean pol comments h, hlen]
  refine ⟨?_, ?_, ?_⟩
  · rw [hmean]
    exact lowerBound_le_mean _ _ hmapne
      (fun x hx => listMin_le_of_mem _ x hx)
  · rw [hmean]
    exact mean_le_upperBound _ _ hmapne
      (fun x hx => le_listMax_of_mem _ x hx)
  · intro hb
    constructor
    · rw [hmean]
      refine lowerBound_le_mean _ _ hmapne ?_
      intro x hx
      rcases List.mem_map.mp hx with ⟨c, hc, rfl⟩
      exact (hb c hc).1
    · rw [hmean]
      refine mean_le_upperBound _ _ hmapne ?_
      intro x hx
      rcases List.mem_map.mp hx with ⟨c, hc, rfl⟩
      exact (hb c hc).2

/-- Witness for C10 at a concrete input: polarities 1/2 and -1/4; the score
lies between -1/4 and 1/2 and within [-1, 1]. -/
theorem analyze_comments_between_min_max_witness :
    (["good coin", "bad coin"] : List String) ≠ [] ∧
    (listMin (["good coin", "bad coin"].map
        (fun c => if c = "good coin" then (1/2 : ℚ) else -(1/4)))
        ≤ analyze_comments (fun c => if c = "good coin" then 1/2 else -(1/4))
            ["good coin", "bad coin"] ∧
    analyze_comments (fun c => if c = "good coin" then 1/2 else -(1/4))
        ["good coin", "bad coin"]
        ≤ listMax (["good coin", "bad coin"].map
            (fun c => if c = "good coin" then (1/2 : ℚ) else -(1/4))) ∧
    ((∀ c ∈ (["good coin", "bad coin"] : List String),
        -1 ≤ (if c = "good coin" then (1/2 : ℚ) else -(1/4)) ∧
          (if c = "good coin" then (1/2 : ℚ) else -(1/4)) ≤ 1) →
      -1 ≤ analyze_comments (fun c => if c = "good coin" then 1/2 else -(1/4))
            ["good coin", "bad coin"] ∧
      analyze_comments (fun c => if c = "good coin" then 1/2 else -(1/4))
            ["good coin", "bad coin"] ≤ 1)) :=
  ⟨List.cons_ne_nil _ _,
    analyze_comments_between_min_max _ _ (List.cons_ne_nil _ _)⟩

/-- The retry loop never looks at attempt indices beyond those it performs:
two operations agreeing on the first `fuel + 1` attempts starting at `idx`
give the same run. -/
theorem retryAux_congr (wait : ℕ → ℚ) (op op2 : ℕ → Except E A) :
    ∀ (fuel idx : ℕ) (sleeps : List ℚ),
      (∀ n, idx ≤ n → n ≤ idx + fuel → op n = op2 n) →
      retryAux wait op fuel idx sleeps = retryAux wait op2 fuel idx sleeps
  | 0, idx, sleeps, h => by
      simp only [retryAux, h idx le_rfl (Nat.le_add_right _ _)]
  | fuel + 1, idx, sleeps, h => by
      simp only [retryAux]
      rw [← h idx le_rfl (Nat.le_add_right _ _)]
      cases hop : op idx with
      | ok v => rfl
      | error e =>
          exact retryAux_congr wait op op2 fuel (idx + 1) _
            (fun n h1 h2 => h n (Nat.le_of_succ_le h1) (by omega))

/-- Claim C2: for the retry policy used by every wrapped operation
(`stop_after_attempt(3)`, `wait_exponential(multiplier=1, min=4, max=10)`):
an operation failing on the first two attempts and succeeding on the third
yields that success on the 3rd attempt, with each inter-attempt sleep at
least the 4-second floor (the sleeps are exactly [4, 4]); an operation
failing on all three attempts surfaces the third failure after exactly 3
attempts, and no 4th attempt is consulted (the run only depends on the
first three outcomes of the operation). -/
theorem retry_policy_behavior (E A : Type) (e : ℕ → E) (v : A) :
    (appRetry (fun n => if n < 2 then Except.error (e n) else Except.ok v)
      = ⟨Except.ok v, 3, [4, 4]⟩) ∧
    (∀ s ∈ (appRetry (fun n =>
        if n < 2 then Except.error (e n) else Except.ok v)).sleeps,
      (4 : ℚ) ≤ s) ∧
    (appRetry (fun n => (Except.error (e n) : Except E A))
      = ⟨Except.error (e 2), 3, [4, 4]⟩) ∧
    (∀ op op2 : ℕ → Except E A,
      (∀ n, n ≤ 2 → op n = op2 n) → appRetry op = appRetry op2) := by
  have h1 : appRetry (fun n => if n < 2 then Except.error (e n) else Except.ok v)
      = ⟨Except.ok v, 3, [4, 4]⟩ := by
    simp only [appRetry, retryCall, retryAux, waitExponential]
    norm_num
  refine ⟨h1, ?_, ?_, ?_⟩
  · rw [h1]
    intro s hs
    rcases List.mem_cons.mp hs with rfl | hs2
    · norm_num
    · rcases List.mem_singleton.mp hs2 with rfl
      norm_num
  · simp only [appRetry, retryCall, retryAux, waitExponential]
    norm_num
  · intro op op2 h
    exact retryAux_congr _ op op2 2 0 [] (fun n _ h2 => h n h2)

/-- Witness for the quantified parts of C2 at concrete inputs: errors are the
attempt indices, the success value is 7, and the two compared operations are
literally equal on the first three indices. -/
theorem retry_policy_behavior_witness :
    (appRetry (fun n => if n < 2 then Except.error n else Except.ok 7)
      = ⟨Except.ok 7, 3, [4, 4]⟩) ∧
    ((4 : ℚ) ≤ 4) ∧
    (appRetry (fun n : ℕ => (Except.error n : Except ℕ ℕ))
      = ⟨Except.error 2, 3, [4, 4]⟩) ∧
    (appRetry (fun n : ℕ => if n ≤ 2 then Except.error n else Except.ok 9)
      = appRetry (fun n : ℕ => if n ≤ 2 then Except.error n else Except.ok 8)) :=
  ⟨(retry_policy_behavior ℕ ℕ (fun n => n) 7).1,
    (retry_policy_behavior ℕ ℕ (fun n => n) 7).2.1 4
      (by rw [(retry_policy_behavior ℕ ℕ (fun n => n) 7).1]; simp),
    (retry_policy_behavior ℕ ℕ (fun n => n) 7).2.2.1,
    (retry_policy_behavior ℕ ℕ (fun n => n) 7).2.2.2 _ _
      (fun n hn => by
        rw [if_pos hn, if_pos hn])⟩

/-- Truncating the output of the scan loop to `limit` equals truncating the list
of all matching comments of all submissions: breaking early only skips
comments that truncation would drop anyway. -/
theorem collectLoop_take (coin_symbol : String) (limit : ℕ) :
    ∀ (subs : List (List String)) (acc : List String),
      (collectLoop coin_symbol limit subs acc).take limit
        = (acc ++ subs.flatten.filter
            (fun c => mentionsSymbol coin_symbol c)).take limit
  | [], acc => by simp [collectLoop]
  | sub :: rest, acc => by
      simp only [collectLoop]
      by_cases hstop :
          limit ≤ (acc ++ sub.filter (fun c => mentionsSymbol coin_symbol c)).length
      · rw [if_pos hstop]
        have hflat : (sub :: rest).flatten = sub ++ rest.flatten := rfl
        rw [hflat, List.filter_append, ← List.append_assoc,
          List.take_append_of_le_length hstop]
      · rw [if_neg hstop,
          collectLoop_take coin_symbol limit rest
            (acc ++ sub.filter (fun c => mentionsSymbol coin_symbol c))]
        have hflat : (sub :: rest).flatten = sub ++ rest.flatten := rfl
        rw [hflat, List.filter_append, ← List.append_assoc]

/-- Claim C7: `fetch_reddit_comments` returns at most `limit` comment
bodies, each containing the symbol as a case-insensitive substring; on a
successful fetch the result is exactly the matching comments, in scan
order, truncated to `limit` items (so the early break loses nothing that
truncation would keep); on any fetch failure the result is the empty list
rather than an exception. -/
theorem fetch_reddit_comments_spec (fetchOutcome :
      Except String (List (List String))) (coin_symbol : String) (limit : ℕ) :
    ((fetch_reddit_comments fetchOutcome coin_symbol limit).length ≤ limit) ∧
    (∀ c ∈ fetch_reddit_comments fetchOutcome coin_symbol limit,
      mentionsSymbol coin_symbol c = true) ∧
    (∀ e, fetch_reddit_comments (Except.error e) coin_symbol limit = []) ∧
    (∀ subs, fetch_reddit_comments (Except.ok subs) coin_symbol limit
      = (subs.flatten.filter
          (fun c => mentionsSymbol coin_symbol c)).take limit) := by
  have hok : ∀ subs, fetch_reddit_comments (Except.ok subs) coin_symbol limit
      = (subs.flatten.filter
          (fun c => mentionsSymbol coin_symbol c)).take limit := by
    intro subs
    show (collectLoop coin_symbol limit subs []).take limit = _
    rw [collectLoop_take coin_symbol limit subs []]
    rfl
  refine ⟨?_, ?_, fun e => rfl, hok⟩
  · cases fetchOutcome with
    | error e => simp [fetch_reddit_comments]
    | ok subs =>
        rw [hok subs]
        exact List.length_take_le _ _
  · intro c hc
    cases fetchOutcome with
    | error e => simp [fetch_reddit_comments] at hc
    | ok subs =>
        rw [hok subs] at hc
        exact (List.mem_filter.mp (List.take_subset _ _ hc)).2

/-- Witness for C7 at concrete inputs: symbol "BTC", limit 2, two hot
submissions; the evaluated result keeps the two matching comments of the
first submission and the early break loses nothing. -/
theorem fetch_reddit_comments_spec_witness :
    ((fetch_reddit_comments (Except.ok [["I like BTC a lot", "ETH rules",
        "btc to the moon"], ["more BTC talk", "nothing here"]]) "BTC" 2).length
      ≤ 2) ∧
    (mentionsSymbol "BTC" "I like BTC a lot" = true) ∧
    (fetch_reddit_comments (Except.error "offline") "BTC" 2 = []) ∧
    (fetch_reddit_comments (Except.ok [["I like BTC a lot", "ETH rules",
        "btc to the moon"], ["more BTC talk", "nothing here"]]) "BTC" 2
      = (([["I like BTC a lot", "ETH rules", "btc to the moon"],
          ["more BTC talk", "nothing here"]] : List (List String)).flatten.filter
            (fun c => mentionsSymbol "BTC" c)).take 2) :=
  ⟨(fetch_reddit_comments_spec (Except.ok [["I like BTC a lot", "ETH rules",
      "btc to the moon"], ["more BTC talk", "nothing here"]]) "BTC" 2).1,
    (fetch_reddit_comments_spec (Except.ok [["I like BTC a lot", "ETH rules",
      "btc to the moon"], ["more BTC talk", "nothing here"]]) "BTC" 2).2.1
      "I like BTC a lot" (by decide),
    (fetch_reddit_comments_spec (Except.error "offline") "BTC" 2).2.2.1
      "offline",
    (fetch_reddit_comments_spec (Except.ok [["I like BTC a lot", "ETH rules",
      "btc to the moon"], ["more BTC talk", "nothing here"]]) "BTC" 2).2.2.2
      [["I like BTC a lot", "ETH rules", "btc to the moon"],
        ["more BTC talk", "nothing here"]]⟩

/-- Claim C9: every value `fetch_market_data` returns is a pair of a
timestamp sequence and a price sequence of equal length; a failed fetch and
a successful fetch with no price points both give the empty pair (and the
error is not propagated). -/
theorem fetch_market_data_series_invariant :
    (∀ fetchOutcome : Except String (List (ℚ × ℚ)),
      (fetch_market_data fetchOutcome).1.length
        = (fetch_market_data fetchOutcome).2.length) ∧
    (∀ e, fetch_market_data (Except.error e) = ([], [])) ∧
    (fetch_market_data (Except.ok []) = ([], [])) := by
  refine ⟨?_, fun e => rfl, rfl⟩
  intro fetchOutcome
  cases fetchOutcome with
  | error e => rfl
  | ok data =>
      cases data with
      | nil => rfl
      | cons p t => simp [fetch_market_data]

/-- A fresh key through the cache wrapper: the first call invokes the body
and stores whatever it returns; a second call with the same key within the
TTL returns the stored value without invoking the body; a second call at or
after TTL expiry invokes the body again. -/
theorem cachedTwice_fresh_then_hit {κ σ α : Type} [DecidableEq κ]
    (ttl t0 t1 : ℚ) (body : κ → σ → α × σ) (k : κ) (world : σ)
    (d : α) (rest : σ) (hbody : body k world = (d, rest)) :
    ((cachedTwice ttl t0 t1 body k world).1 = (d, true)) ∧
    (t1 - t0 < ttl →
      (cachedTwice ttl t0 t1 body k world).2 = (d, false)) ∧
    (ttl ≤ t1 - t0 →
      (cachedTwice ttl t0 t1 body k world).2.2 = true) := by
  have hr1 : cachedCall ttl body k t0 [] world
      = ⟨d, [⟨k, d, t0⟩], rest, true⟩ := by
    simp only [cachedCall, lookupLive, hbody]
  refine ⟨?_, ?_, ?_⟩
  · simp only [cachedTwice]
    rw [hr1]
  · intro h2
    have hlook : lookupLive (α := α) ttl t1 k [⟨k, d, t0⟩] = some d := by
      simp [lookupLive, h2]
    simp only [cachedTwice]
    rw [hr1]
    simp only [cachedCall, hlook]
  · intro h2
    have hlook : lookupLive (α := α) ttl t1 k [⟨k, d, t0⟩] = none := by
      simp [lookupLive, not_lt.mpr h2]
    simp only [cachedTwice]
    rw [hr1]
    simp only [cachedCall, hlook]

/-- Claim C1, counterexample: the underlying fetch of the first
`fetch_all_coins` call fails; the second call one second later (well inside
the 3600s TTL) does NOT invoke the underlying operation again — it returns
the remembered degraded value `{}` without touching the network, even
though the network would now succeed.  The `try/except` inside the cached
function converts the failure into `{}`, which `st.cache_data` stores like
any other return value. -/
theorem cache_failure_remembered_cex :
    (fetchAllCoinsTwice 3600 0 1
        [Except.error "connection failed", Except.ok [("bitcoin", "btc")]]).2
      = ([], false) :=
  (cachedTwice_fresh_then_hit 3600 0 1 fetch_all_coins_body ()
    [Except.error "connection failed", Except.ok [("bitcoin", "btc")]]
    [] [Except.ok [("bitcoin", "btc")]] rfl).2.1 (by norm_num)

/-- Claim C1 amended: for each of the three cached fetch operations, a
failure of the underlying fetch IS cached, as the degraded value the
`try/except` inside the operation converts it to — `{}` for
`fetch_all_coins`, `None` for `fetch_coin_info`, `([], [])` for
`fetch_market_data`: the first call invokes the underlying operation and
stores the degraded value; a second call with the same arguments within the
TTL returns that remembered value without invoking the underlying
operation; only a call at or after TTL expiry invokes it again. -/
theorem cache_remembers_degraded_result (ttl t0 t1 : ℚ)
    (e coin_id : String) (days : ℕ)
    (restA : List (Except String (List (String × String))))
    (restI : List (Except String CoinInfo))
    (restM : List (Except String (List (ℚ × ℚ)))) :
    (((fetchAllCoinsTwice ttl t0 t1 (Except.error e :: restA)).1
        = ([], true)) ∧
     (t1 - t0 < ttl →
       (fetchAllCoinsTwice ttl t0 t1 (Except.error e :: restA)).2
         = ([], false)) ∧
     (ttl ≤ t1 - t0 →
       (fetchAllCoinsTwice ttl t0 t1 (Except.error e :: restA)).2.2
         = true)) ∧
    (((fetchCoinInfoTwice ttl t0 t1 coin_id (Except.error e :: restI)).1
        = (none, true)) ∧
     (t1 - t0 < ttl →
       (fetchCoinInfoTwice ttl t0 t1 coin_id (Except.error e :: restI)).2
         = (none, false)) ∧
     (ttl ≤ t1 - t0 →
       (fetchCoinInfoTwice ttl t0 t1 coin_id (Except.error e :: restI)).2.2
         = true)) ∧
    (((fetchMarketDataTwice ttl t0 t1 coin_id days
          (Except.error e :: restM)).1 = (([], []), true)) ∧
     (t1 - t0 < ttl →
       (fetchMarketDataTwice ttl t0 t1 coin_id days
          (Except.error e :: restM)).2 = (([], []), false)) ∧
     (ttl ≤ t1 - t0 →
       (fetchMarketDataTwice ttl t0 t1 coin_id days
          (Except.error e :: restM)).2.2 = true)) := by
  refine ⟨?_, ?_, ?_⟩
  · exact cachedTwice_fresh_then_hit ttl t0 t1 fetch_all_coins_body ()
      (Except.error e :: restA) [] restA rfl
  · exact cachedTwice_fresh_then_hit ttl t0 t1 fetch_coin_info_body coin_id
      (Except.error e :: restI) none restI rfl
  · exact cachedTwice_fresh_then_hit ttl t0 t1 fetch_market_data_body
      (coin_id, days) (Except.error e :: restM) ([], []) restM rfl

/-- Witness for the amended theorem of C1 at concrete inputs: each cached
operation with its source TTL (3600, 600, 300), a second call at time 1
(inside the TTL: the remembered degraded value, body not invoked) and a
second call at TTL expiry (body invoked again). -/
theorem cache_remembers_degraded_result_witness :
    ((fetchAllCoinsTwice 3600 0 1
        [Except.error "boom", Except.ok [("bitcoin", "btc")]]).2
      = ([], false)) ∧
    ((fetchAllCoinsTwice 3600 0 3600
        [Except.error "boom", Except.ok [("bitcoin", "btc")]]).2.2
      = true) ∧
    ((fetchCoinInfoTwice 600 0 1 "bitcoin"
        [Except.error "boom", Except.ok ⟨"Bitcoin"⟩]).2
      = (none, false)) ∧
    ((fetchCoinInfoTwice 600 0 600 "bitcoin"
        [Except.error "boom", Except.ok ⟨"Bitcoin"⟩]).2.2 = true) ∧
    ((fetchMarketDataTwice 300 0 1 "bitcoin" 7
        [Except.error "boom", Except.ok [(1000, 50)]]).2
      = (([], []), false)) ∧
    ((fetchMarketDataTwice 300 0 300 "bitcoin" 7
        [Except.error "boom", Except.ok [(1000, 50)]]).2.2 = true) :=
  ⟨(cache_remembers_degraded_result 3600 0 1 "boom" "bitcoin" 7
      [Except.ok [("bitcoin", "btc")]] [Except.ok ⟨"Bitcoin"⟩]
      [Except.ok [(1000, 50)]]).1.2.1 (by norm_num),
    (cache_remembers_degraded_result 3600 0 3600 "boom" "bitcoin" 7
      [Except.ok [("bitcoin", "btc")]] [Except.ok ⟨"Bitcoin"⟩]
      [Except.ok [(1000, 50)]]).1.2.2 (by norm_num),
    (cache_remembers_degraded_result 600 0 1 "boom" "bitcoin" 7
      [Except.ok [("bitcoin", "btc")]] [Except.ok ⟨"Bitcoin"⟩]
      [Except.ok [(1000, 50)]]).2.1.2.1 (by norm_num),
    (cache_remembers_degraded_result 600 0 600 "boom" "bitcoin" 7
      [Except.ok [("bitcoin", "btc")]] [Except.ok ⟨"Bitcoin"⟩]
      [Except.ok [(1000, 50)]]).2.1.2.2 (by norm_num),
    (cache_remembers_degraded_result 300 0 1 "boom" "bitcoin" 7
      [Except.ok [("bitcoin", "btc")]] [Except.ok ⟨"Bitcoin"⟩]
      [Except.ok [(1000, 50)]]).2.2.2.1 (by norm_num),
    (cache_remembers_degraded_result 300 0 300 "boom" "bitcoin" 7
      [Except.ok [("bitcoin", "btc")]] [Except.ok ⟨"Bitcoin"⟩]
      [Except.ok [(1000, 50)]]).2.2.2.2 (by norm_num)⟩

/-- Claim C8 (code bug): when `fetch_all_coins` fails (so the coin list is
the degraded empty mapping), the main flow halts with the visible "Failed
to load cryptocurrency list" error and performs no further interaction,
whatever the other fetches would do and whether or not analysis was
requested — this half of the claim holds.  The contrast half — the other
operations degrade to empty/absent results and let the flow continue — is
contradicted by the source: it holds when the market series is also empty
(second conjunct), but when the coin-info fetch fails while the market
fetch returns a nonempty series, app.py 585 evaluates `coin_info["name"]`
on `None` and the run aborts with an uncaught `TypeError` (third conjunct),
instead of continuing with degraded results. -/
theorem fetchAllCoins_failure_halts (pol : String → ℚ)
    (e e1 e2 e3 : String) (coinInfoO : Except String CoinInfo)
    (redditO : Except String (List (List String)))
    (marketO : Except String (List (ℚ × ℚ)))
    (coin_symbol cid sym : String) (coins : List (String × String))
    (clicked : Bool) (target d p : ℚ) :
    (mainFlow pol ⟨Except.error e, coinInfoO, redditO, marketO⟩ coin_symbol
        clicked target = MainOutcome.haltedNoCoins) ∧
    (mainFlow pol ⟨Except.ok ((cid, sym) :: coins), Except.error e1,
        Except.error e2, Except.error e3⟩ coin_symbol true target
      = MainOutcome.completed false SentimentOutcome.noCommentsWarning
          false none) ∧
    (mainFlow pol ⟨Except.ok ((cid, sym) :: coins), Except.error e1,
        Except.error e2, Except.ok [(d, p)]⟩ coin_symbol true target
      = MainOutcome.crashedTypeError SentimentOutcome.noCommentsWarning) :=
  ⟨rfl, rfl, rfl⟩

end CryptoApp
